import Mathlib

/-!
Server-side hook resolution of git-module (`repo_hook.go`).

A shallow embedding of `Repository.NewHook`, `Repository.Hook` and
`Repository.Hooks`, followed by the theorems about them.

Conventions of the embedding:

* Go strings are Lean strings; `string(p)` on the bytes read is the identity.
* A Go result `(v, nil)` is `Except.ok v`, a Go result `(nil, err)` with
  `err != nil` is `Except.error err`.  `Hook` and `Hooks` return nothing else:
  every `return` of theirs carries either a nil error and a non-nil value (for
  `Hooks`: a non-nil slice, from the literal or from `make`), or a nil value
  and a non-nil error.
* The file system is read only.  Every operation runs against a
  `FileSystem`, the answers the operating system gives, and records the calls
  it makes, in order, in a trace.
-/

namespace GitModule

/-! ## Errors -/

/-- Error numbers a failed system call can carry. -/
inductive Errno
  | ENOENT
  | EACCES
  | EIO
  | EISDIR
deriving DecidableEq, Repr

/-- Go `error` values: the sentinel `os.ErrNotExist`, an `*os.PathError`
(what `os.Stat` and `ioutil.ReadFile` return on failure), or any other error.
The comparison `err == os.ErrNotExist` of the source is equality with the
sentinel; a `PathError` carrying `ENOENT` is a different value. -/
inductive GoError
  | ErrNotExist
  | PathError (op : String) (path : String) (errno : Errno)
  | other (msg : String)
deriving DecidableEq, Repr

/-! ## Paths: `path.Join` and `filepath.Join`

Both come from Go's standard library, not from this repository.  They are
given here as they behave where the separator is a slash: the elements are
joined and the result is cleaned lexically, element by element. -/

/-- Cut a path at every slash: the elements between the separators. -/
def splitSlash : List Char → List (List Char)
  | [] => [[]]
  | c :: cs =>
    if c = '/' then [] :: splitSlash cs
    else
      match splitSlash cs with
      | [] => [[c]]
      | e :: es => (c :: e) :: es

/-- One element of `Clean`: empty elements and `.` are dropped, `..` removes
the element before it (kept when there is none to remove and the path is not
rooted), any other element is kept.  The stack holds the kept elements, last
one first. -/
def cleanStep (rooted : Bool) (stack : List (List Char)) (e : List Char) : List (List Char) :=
  if e = [] ∨ e = ['.'] then stack
  else if e = ['.', '.'] then
    match stack with
    | top :: below => if top = ['.', '.'] then e :: stack else below
    | [] => if rooted then [] else [e]
  else e :: stack

/-- Join elements with single slashes. -/
def joinSlash : List (List Char) → List Char
  | [] => []
  | [e] => e
  | e :: es => e ++ '/' :: joinSlash es

/-- Go's `path.Clean`, on the characters of the path. -/
def cleanChars (p : List Char) : List Char :=
  match p with
  | [] => ['.']
  | c :: _ =>
    let rooted : Bool := c = '/'
    let body := joinSlash ((splitSlash p).foldl (cleanStep rooted) []).reverse
    if rooted then '/' :: body
    else if body = [] then ['.'] else body

/-- Go's `path.Clean` (and `filepath.Clean` where the separator is a slash). -/
def Clean (p : String) : String := String.mk (cleanChars p.data)

/-- Go's `strings.Join(elem, "/")`. -/
def stringsJoin (elem : List String) : String :=
  String.mk (joinSlash (elem.map String.data))

/-- Go's `filepath.Join` where the separator is a slash: the elements from the
first non-empty one on, joined and cleaned; the empty string when all are
empty. -/
def filepathJoin : List String → String
  | [] => ""
  | e :: es => if e = "" then filepathJoin es else Clean (stringsJoin (e :: es))

/-- Go's `path.Join`: the non-empty elements joined and cleaned; the empty
string when all are empty. -/
def pathJoin (elem : List String) : String :=
  match elem.filter (fun e => e ≠ "") with
  | [] => ""
  | e :: es => Clean (stringsJoin (e :: es))

/-! ## Data model -/

/-- The type `HookName`, declared `type HookName string`. -/
abbrev HookName := String

/-- The `Hook` struct: the fields the source writes.  Fields a composite
literal leaves out take Go's zero value. -/
structure Hook where
  name : HookName
  path : String
  isSample : Bool := false
  content : String := ""
deriving DecidableEq, Repr

/-- The `Repository` struct: the field the source reads. -/
structure Repository where
  path : String
deriving DecidableEq, Repr

/-- The constant `DefaultHooksDir`, declared `const DefaultHooksDir = "hooks"`. -/
def DefaultHooksDir : String := "hooks"

/-! ## The file system and the calls made on it -/

/-- What the operating system answers.  `isFile` and `isDir` are the
package's boolean helpers (defined outside `repo_hook.go`): only their boolean
answer reaches the code.  `ReadFile` is `ioutil.ReadFile`. -/
structure FileSystem where
  isFile : String → Bool
  isDir : String → Bool
  ReadFile : String → Except GoError String

/-- A call made on the file system. -/
inductive Call
  | isFile (p : String)
  | isDir (p : String)
  | ReadFile (p : String)
deriving DecidableEq, Repr

/-- A computation that queries the file system: its value and the calls it
made, in order. -/
def Eff (α : Type) : Type := FileSystem → α × List Call

/-- Run a computation against a file system. -/
def Eff.run {α : Type} (m : Eff α) (fs : FileSystem) : α × List Call := m fs

instance : Monad Eff where
  pure a := fun _ => (a, [])
  bind m f := fun fs =>
    let x := m fs
    let y := f x.1 fs
    (y.1, x.2 ++ y.2)

/-- The call `isFile(p)`. -/
def isFile (p : String) : Eff Bool := fun fs => (fs.isFile p, [Call.isFile p])

/-- The call `isDir(p)`. -/
def isDir (p : String) : Eff Bool := fun fs => (fs.isDir p, [Call.isDir p])

/-- The call `ioutil.ReadFile(p)`. -/
def ReadFile (p : String) : Eff (Except GoError String) :=
  fun fs => (fs.ReadFile p, [Call.ReadFile p])

/-! ## Below the boolean helpers: `os.Stat` -/

/-- What `os.Stat` reports about an existing path. -/
inductive FileMode
  | regular
  | directory
  | other
deriving DecidableEq, Repr

/-- The operating system one level lower: `os.Stat` and `ioutil.ReadFile`,
each of which succeeds or fails with an error. -/
structure Disk where
  Stat : String → Except GoError FileMode
  ReadFile : String → Except GoError String

/-- A boolean helper.  `repo_hook.go` calls `isFile` and `isDir` and does not
define them; it uses their result as the condition of an `if`, so each is some
function that looks at the disk and at a path and answers a boolean.  Nothing
more is assumed of them: the statements below that mention a helper hold for
every function of this type. -/
abbrev Helper := Disk → String → Bool

/-- The answers the code receives on a disk when `isFile` and `isDir` are the
two given helpers. -/
def Disk.toFileSystem (d : Disk) (isFileHelper isDirHelper : Helper) : FileSystem where
  isFile := isFileHelper d
  isDir := isDirHelper d
  ReadFile := d.ReadFile

/-! ## The operations of `repo_hook.go` -/

/-- The method `func (r *Repository) NewHook(name HookName) *Hook`.  It makes no
call on the file system. -/
def Repository.NewHook (r : Repository) (name : HookName) : Eff GitModule.Hook :=
  pure { name := name, path := filepathJoin [r.path, DefaultHooksDir, name] }

/-- The method `func (r *Repository) Hook(name HookName) (*Hook, error)`. -/
def Repository.Hook (r : Repository) (name : HookName) : Eff (Except GoError GitModule.Hook) := do
  -- 1. Check if there is an active hook.
  let fpath := filepathJoin [r.path, DefaultHooksDir, name]
  if (← isFile fpath) then
    match (← ReadFile fpath) with
    | .error err => pure (.error err)
    | .ok p => pure (.ok { name := name, path := fpath, content := p })
  else
    -- 2. Check if a sample file exists.
    let spath := fpath ++ ".sample"
    if (← isFile spath) then
      match (← ReadFile spath) with
      | .error err => pure (.error err)
      | .ok p => pure (.ok { name := name, path := fpath, isSample := true, content := p })
    else
      pure (.error GoError.ErrNotExist)

/-- The `for _, name := range ServerSideHooks` loop of `Hooks`, from the names
still to visit and the slice `hooks` accumulated so far. -/
def Repository.hooksLoop (r : Repository) :
    List HookName → List GitModule.Hook → Eff (Except GoError (List GitModule.Hook))
  | [], hooks => pure (.ok hooks)
  | name :: rest, hooks => do
    match (← r.Hook name) with
    | .error err =>
      if err = GoError.ErrNotExist then r.hooksLoop rest hooks
      else pure (.error err)
    | .ok h => r.hooksLoop rest (hooks ++ [h])

/-- The method `func (r *Repository) Hooks() ([]*Hook, error)`.  The catalog
`ServerSideHooks` is a package variable defined outside `repo_hook.go`; it is
a parameter here. -/
def Repository.Hooks (ServerSideHooks : List HookName) (r : Repository) :
    Eff (Except GoError (List GitModule.Hook)) := do
  if !(← isDir (pathJoin [r.path, DefaultHooksDir])) then
    pure (.ok [])
  else
    r.hooksLoop ServerSideHooks []

/-! ## Vocabulary of the statements -/

/-- The active path `<repo>/hooks/<name>`: the expression both `NewHook` and
`Hook` compute. -/
abbrev activePath (r : Repository) (name : HookName) : String :=
  filepathJoin [r.path, DefaultHooksDir, name]

/-- The sample path `<repo>/hooks/<name>.sample`. -/
abbrev samplePath (r : Repository) (name : HookName) : String :=
  activePath r name ++ ".sample"

/-- The hooks directory `<repo>/hooks` that `Hooks` tests. -/
abbrev hooksDir (r : Repository) : String :=
  pathJoin [r.path, DefaultHooksDir]

/-- The hook `Hook` resolves for a name, if any. -/
def resolved (fs : FileSystem) (r : Repository) (name : HookName) : Option Hook :=
  ((r.Hook name).run fs).1.toOption

/-- The calls `Hook` makes for a name. -/
def hookCalls (fs : FileSystem) (r : Repository) (name : HookName) : List Call :=
  ((r.Hook name).run fs).2

/-- Resolution of a name fails with an error other than `os.ErrNotExist`. -/
def failsHard (fs : FileSystem) (r : Repository) (name : HookName) : Prop :=
  ∃ e : GoError, ((r.Hook name).run fs).1 = .error e ∧ e ≠ GoError.ErrNotExist

/-! ## Concrete file systems -/

/-- Repository `/r` with `hooks/update` holding `X` and `hooks/update.sample`
holding `Y`. -/
def fsBoth : FileSystem where
  isFile p := p = "/r/hooks/update" ∨ p = "/r/hooks/update.sample"
  isDir p := p = "/r" ∨ p = "/r/hooks"
  ReadFile p :=
    if p = "/r/hooks/update" then .ok "X"
    else if p = "/r/hooks/update.sample" then .ok "Y"
    else .error (GoError.PathError "open" p Errno.ENOENT)

/-- Repository `/r` with `hooks/pre-receive.sample` only. -/
def fsSampleOnly : FileSystem where
  isFile p := p = "/r/hooks/pre-receive.sample"
  isDir p := p = "/r" ∨ p = "/r/hooks"
  ReadFile p :=
    if p = "/r/hooks/pre-receive.sample" then .ok "#!/bin/sh\nexit 0\n"
    else .error (GoError.PathError "open" p Errno.ENOENT)

/-- Repository `/r` with `hooks/update` present but unreadable, next to a
readable `hooks/update.sample`. -/
def fsUnreadable : FileSystem where
  isFile p := p = "/r/hooks/update" ∨ p = "/r/hooks/update.sample"
  isDir p := p = "/r" ∨ p = "/r/hooks"
  ReadFile p :=
    if p = "/r/hooks/update" then .error (GoError.PathError "open" p Errno.EACCES)
    else if p = "/r/hooks/update.sample" then .ok "Y"
    else .error (GoError.PathError "open" p Errno.ENOENT)

/-- A file system with nothing in it. -/
def fsEmpty : FileSystem where
  isFile _ := false
  isDir _ := false
  ReadFile p := .error (GoError.PathError "open" p Errno.ENOENT)

/-- Repository `/r` with three active hooks, of which `update` cannot be
read. -/
def fsFailing : FileSystem where
  isFile p := p = "/r/hooks/pre-receive" ∨ p = "/r/hooks/update" ∨ p = "/r/hooks/post-receive"
  isDir p := p = "/r" ∨ p = "/r/hooks"
  ReadFile p :=
    if p = "/r/hooks/pre-receive" then .ok "A"
    else if p = "/r/hooks/update" then .error (GoError.PathError "read" p Errno.EIO)
    else if p = "/r/hooks/post-receive" then .ok "C"
    else .error (GoError.PathError "open" p Errno.ENOENT)

/-- Repository `/r` with `hooks/pre-receive.sample` = `S`, and with both
`hooks/update` = `X` and `hooks/update.sample` = `Y`. -/
def fsRepo : FileSystem where
  isFile p :=
    p = "/r/hooks/pre-receive.sample" ∨ p = "/r/hooks/update" ∨ p = "/r/hooks/update.sample"
  isDir p := p = "/r" ∨ p = "/r/hooks"
  ReadFile p :=
    if p = "/r/hooks/pre-receive.sample" then .ok "S"
    else if p = "/r/hooks/update" then .ok "X"
    else if p = "/r/hooks/update.sample" then .ok "Y"
    else .error (GoError.PathError "open" p Errno.ENOENT)

/-- A catalog for the examples. -/
def exampleCatalog : List HookName := ["pre-receive", "update", "post-receive"]

/-- A disk on which the stat of `/r/hooks/update`, of `/r/hooks/pre-receive`,
of `/r/hooks/pre-receive.sample` and of `/r/hooks/post-receive` is refused
(permission denied); `update.sample` is a readable regular file holding `Y`,
`post-receive.sample` a regular file whose read fails. -/
def diskDenied : Disk where
  Stat p :=
    if p = "/r/hooks/update" ∨ p = "/r/hooks/pre-receive" ∨ p = "/r/hooks/pre-receive.sample"
        ∨ p = "/r/hooks/post-receive" then
      .error (GoError.PathError "stat" p Errno.EACCES)
    else if p = "/r/hooks/update.sample" ∨ p = "/r/hooks/post-receive.sample" then
      .ok FileMode.regular
    else if p = "/r" ∨ p = "/r/hooks" then .ok FileMode.directory
    else .error (GoError.PathError "stat" p Errno.ENOENT)
  ReadFile p :=
    if p = "/r/hooks/update.sample" then .ok "Y"
    else if p = "/r/hooks/post-receive.sample" then .error (GoError.PathError "read" p Errno.EIO)
    else .error (GoError.PathError "open" p Errno.EACCES)

/-- A disk on which the stat of `/r/hooks/update` meets a transient I/O fault
while the file itself is readable and holds `X`; `update.sample` is a readable
regular file holding `Y`. -/
def diskFault : Disk where
  Stat p :=
    if p = "/r/hooks/update" then .error (GoError.PathError "stat" p Errno.EIO)
    else if p = "/r/hooks/update.sample" then .ok FileMode.regular
    else if p = "/r" ∨ p = "/r/hooks" then .ok FileMode.directory
    else .error (GoError.PathError "stat" p Errno.ENOENT)
  ReadFile p :=
    if p = "/r/hooks/update" then .ok "X"
    else if p = "/r/hooks/update.sample" then .ok "Y"
    else .error (GoError.PathError "open" p Errno.ENOENT)

/-- One boolean helper, for the examples: the stat succeeds and reports a
regular file; any failed stat answers `false`. -/
def strictIsFile : Helper := fun d p =>
  match d.Stat p with
  | .ok FileMode.regular => true
  | _ => false

/-- Another boolean helper, for the examples: as `strictIsFile`, except that a
stat failing for a reason other than a missing path answers `true`. -/
def lenientIsFile : Helper := fun d p =>
  match d.Stat p with
  | .ok FileMode.regular => true
  | .ok _ => false
  | .error GoError.ErrNotExist => false
  | .error (GoError.PathError _ _ Errno.ENOENT) => false
  | .error _ => true

/-- A boolean helper for directories, for the examples: the stat succeeds and
reports a directory. -/
def strictIsDir : Helper := fun d p =>
  match d.Stat p with
  | .ok FileMode.directory => true
  | _ => false

/-! ## Running the monad -/

@[simp] theorem Eff.run_pure {α : Type} (a : α) (fs : FileSystem) :
    (pure a : Eff α).run fs = (a, []) := rfl

@[simp] theorem Eff.run_bind {α β : Type} (m : Eff α) (f : α → Eff β) (fs : FileSystem) :
    (m >>= f).run fs
      = (((f (m.run fs).1).run fs).1, (m.run fs).2 ++ ((f (m.run fs).1).run fs).2) := rfl

@[simp] theorem run_isFile (p : String) (fs : FileSystem) :
    (isFile p).run fs = (fs.isFile p, [Call.isFile p]) := rfl

@[simp] theorem run_isDir (p : String) (fs : FileSystem) :
    (isDir p).run fs = (fs.isDir p, [Call.isDir p]) := rfl

@[simp] theorem run_ReadFile (p : String) (fs : FileSystem) :
    (ReadFile p).run fs = (fs.ReadFile p, [Call.ReadFile p]) := rfl

/-! ## `Hook`, case by case -/

theorem Hook_run_active (fs : FileSystem) (r : Repository) (name : HookName)
    (hfile : fs.isFile (activePath r name) = true) :
    (r.Hook name).run fs
      = ((fs.ReadFile (activePath r name)).map
            (fun p => { name := name, path := activePath r name, content := p }),
          [Call.isFile (activePath r name), Call.ReadFile (activePath r name)]) := by
  cases hread : fs.ReadFile (activePath r name) <;>
    simp [Repository.Hook, hfile, hread, Except.map]

theorem Hook_run_sample (fs : FileSystem) (r : Repository) (name : HookName)
    (hact : fs.isFile (activePath r name) = false)
    (hsam : fs.isFile (samplePath r name) = true) :
    (r.Hook name).run fs
      = ((fs.ReadFile (samplePath r name)).map
            (fun p => { name := name, path := activePath r name, isSample := true, content := p }),
          [Call.isFile (activePath r name), Call.isFile (samplePath r name),
            Call.ReadFile (samplePath r name)]) := by
  cases hread : fs.ReadFile (samplePath r name) <;>
    simp [Repository.Hook, hact, hsam, hread, Except.map]

theorem Hook_run_none (fs : FileSystem) (r : Repository) (name : HookName)
    (hact : fs.isFile (activePath r name) = false)
    (hsam : fs.isFile (samplePath r name) = false) :
    (r.Hook name).run fs
      = (.error GoError.ErrNotExist,
          [Call.isFile (activePath r name), Call.isFile (samplePath r name)]) := by
  simp [Repository.Hook, hact, hsam]

/-! ## The loop of `Hooks` -/

theorem hooksLoop_run_cons (fs : FileSystem) (r : Repository) (name : HookName)
    (rest : List HookName) (hooks : List Hook) :
    (r.hooksLoop (name :: rest) hooks).run fs
      = match ((r.Hook name).run fs).1 with
        | .error err =>
          if err = GoError.ErrNotExist then
            (((r.hooksLoop rest hooks).run fs).1,
              hookCalls fs r name ++ ((r.hooksLoop rest hooks).run fs).2)
          else (.error err, hookCalls fs r name)
        | .ok h =>
          (((r.hooksLoop rest (hooks ++ [h])).run fs).1,
            hookCalls fs r name ++ ((r.hooksLoop rest (hooks ++ [h])).run fs).2) := by
  simp only [Repository.hooksLoop, Eff.run_bind, hookCalls]
  cases h : ((r.Hook name).run fs).1 with
  | error err =>
    by_cases he : err = GoError.ErrNotExist <;> simp [he]
  | ok h => simp

theorem hooksLoop_run_ok (fs : FileSystem) (r : Repository) (names : List HookName) :
    ∀ hooks : List Hook, (∀ n ∈ names, ¬ failsHard fs r n) →
      (r.hooksLoop names hooks).run fs
        = (.ok (hooks ++ names.filterMap (resolved fs r)), names.flatMap (hookCalls fs r)) := by
  induction names with
  | nil => intro hooks _; simp [Repository.hooksLoop]
  | cons n rest ih =>
    intro hooks hall
    have hrest : ∀ m ∈ rest, ¬ failsHard fs r m := fun m hm => hall m (List.mem_cons_of_mem _ hm)
    have hn : ¬ failsHard fs r n := hall n (List.mem_cons_self _ _)
    rw [hooksLoop_run_cons]
    cases h : ((r.Hook n).run fs).1 with
    | error err =>
      have he : err = GoError.ErrNotExist := by
        by_contra hne
        exact hn ⟨err, h, hne⟩
      simp [he, ih hooks hrest, resolved, h, Except.toOption]
    | ok hk =>
      simp [ih (hooks ++ [hk]) hrest, resolved, h, Except.toOption]

theorem hooksLoop_run_fail (fs : FileSystem) (r : Repository) (pre : List HookName)
    (name : HookName) (post : List HookName) (e : GoError)
    (herr : ((r.Hook name).run fs).1 = .error e) (hne : e ≠ GoError.ErrNotExist) :
    ∀ hooks : List Hook, (∀ n ∈ pre, ¬ failsHard fs r n) →
      (r.hooksLoop (pre ++ name :: post) hooks).run fs
        = (.error e, (pre ++ [name]).flatMap (hookCalls fs r)) := by
  induction pre with
  | nil =>
    intro hooks _
    simp [hooksLoop_run_cons, herr, hne]
  | cons n rest ih =>
    intro hooks hall
    have hrest : ∀ m ∈ rest, ¬ failsHard fs r m := fun m hm => hall m (List.mem_cons_of_mem _ hm)
    have hn : ¬ failsHard fs r n := hall n (List.mem_cons_self _ _)
    rw [List.cons_append, hooksLoop_run_cons]
    cases h : ((r.Hook n).run fs).1 with
    | error err =>
      have he : err = GoError.ErrNotExist := by
        by_contra hne2
        exact hn ⟨err, h, hne2⟩
      simp [he, ih hooks hrest]
    | ok hk =>
      simp [ih (hooks ++ [hk]) hrest]

theorem hooksLoop_not_ErrNotExist (fs : FileSystem) (r : Repository) (names : List HookName) :
    ∀ hooks : List Hook, ((r.hooksLoop names hooks).run fs).1 ≠ .error GoError.ErrNotExist := by
  induction names with
  | nil => intro hooks; simp [Repository.hooksLoop]
  | cons n rest ih =>
    intro hooks
    rw [hooksLoop_run_cons]
    cases h : ((r.Hook n).run fs).1 with
    | error err =>
      by_cases he : err = GoError.ErrNotExist
      · simpa [he] using ih hooks
      · simp [he]
    | ok hk => simpa using ih (hooks ++ [hk])

theorem split_at_first_failure (fs : FileSystem) (r : Repository) :
    ∀ names : List HookName, (∃ n ∈ names, failsHard fs r n) →
      ∃ (pre : List HookName) (name : HookName) (post : List HookName),
        names = pre ++ name :: post ∧ (∀ n ∈ pre, ¬ failsHard fs r n)
          ∧ ∃ e : GoError, ((r.Hook name).run fs).1 = .error e ∧ e ≠ GoError.ErrNotExist := by
  intro names
  induction names with
  | nil => rintro ⟨n, hn, _⟩; simp at hn
  | cons a rest ih =>
    rintro ⟨n, hn, hfail⟩
    by_cases ha : failsHard fs r a
    · exact ⟨[], a, rest, rfl, by simp, ha⟩
    · have hrest : ∃ m ∈ rest, failsHard fs r m := by
        rcases List.mem_cons.mp hn with rfl | hmem
        · exact absurd hfail ha
        · exact ⟨n, hmem, hfail⟩
      obtain ⟨pre, name, post, hcat, hpre, hex⟩ := ih hrest
      refine ⟨a :: pre, name, post, by rw [hcat]; rfl, ?_, hex⟩
      intro m hm
      rcases List.mem_cons.mp hm with rfl | hmem
      · exact ha
      · exact hpre m hmem

theorem Hooks_run (fs : FileSystem) (catalog : List HookName) (r : Repository) :
    (r.Hooks catalog).run fs
      = if fs.isDir (hooksDir r) = true then
          (((r.hooksLoop catalog []).run fs).1,
            Call.isDir (hooksDir r) :: ((r.hooksLoop catalog []).run fs).2)
        else (.ok [], [Call.isDir (hooksDir r)]) := by
  by_cases hdir : fs.isDir (hooksDir r) = true
  · simp [Repository.Hooks, hdir]
  · simp [Repository.Hooks, hdir]

/-- The hook `Hook` resolves carries the requested name. -/
theorem resolved_name (fs : FileSystem) (r : Repository) (name : HookName) (h : Hook)
    (hres : resolved fs r name = some h) : h.name = name := by
  unfold resolved at hres
  by_cases hact : fs.isFile (activePath r name) = true
  · rw [Hook_run_active fs r name hact] at hres
    cases hread : fs.ReadFile (activePath r name) <;>
      simp [hread, Except.map, Except.toOption] at hres
    rw [← hres]
  · have hact2 : fs.isFile (activePath r name) = false := by simpa using hact
    by_cases hsam : fs.isFile (samplePath r name) = true
    · rw [Hook_run_sample fs r name hact2 hsam] at hres
      cases hread : fs.ReadFile (samplePath r name) <;>
        simp [hread, Except.map, Except.toOption] at hres
      rw [← hres]
    · have hsam2 : fs.isFile (samplePath r name) = false := by simpa using hsam
      rw [Hook_run_none fs r name hact2 hsam2] at hres
      simp [Except.toOption] at hres

theorem map_name_filterMap_resolved (fs : FileSystem) (r : Repository)
    (names : List HookName) :
    (names.filterMap (resolved fs r)).map Hook.name
      = names.filter (fun n => (resolved fs r n).isSome) := by
  induction names with
  | nil => rfl
  | cons n rest ih =>
    cases hres : resolved fs r n with
    | none => simp [List.filterMap_cons, hres, ih]
    | some h => simp [List.filterMap_cons, hres, ih, resolved_name fs r n h hres]

/-! ## `NewHook` -/

/-- C10: `NewHook` is a total constructor that does not touch the file system:
in every file system state it returns the hook with the given name, the active
path `<repo>/hooks/<name>`, empty content and `isSample` false, and makes no
call; the result is the same in any two states, and its path is the path of
every hook `Hook` resolves for that name. -/
theorem NewHook_total (fs : FileSystem) (r : Repository) (name : HookName) :
    (r.NewHook name).run fs
        = ({ name := name, path := activePath r name, isSample := false, content := "" }, [])
      ∧ (∀ fs2 : FileSystem, (r.NewHook name).run fs2 = (r.NewHook name).run fs)
      ∧ (∀ (fs2 : FileSystem) (h : Hook), ((r.Hook name).run fs2).1 = .ok h →
          h.path = ((r.NewHook name).run fs).1.path) := by
  refine ⟨rfl, fun _ => rfl, fun fs2 h hres => ?_⟩
  show h.path = activePath r name
  by_cases hact : fs2.isFile (activePath r name) = true
  · rw [Hook_run_active fs2 r name hact] at hres
    cases hread : fs2.ReadFile (activePath r name) <;>
      simp [hread, Except.map] at hres
    rw [← hres]
  · have hact2 : fs2.isFile (activePath r name) = false := by simpa using hact
    by_cases hsam : fs2.isFile (samplePath r name) = true
    · rw [Hook_run_sample fs2 r name hact2 hsam] at hres
      cases hread : fs2.ReadFile (samplePath r name) <;>
        simp [hread, Except.map] at hres
      rw [← hres]
    · have hsam2 : fs2.isFile (samplePath r name) = false := by simpa using hsam
      rw [Hook_run_none fs2 r name hact2 hsam2] at hres
      exact nomatch hres

/-- Witness of C10: a repository location that does not exist on disk and a
name outside the example catalog. -/
theorem NewHook_total_witness :
    ((Repository.mk "/nowhere").NewHook "my-hook").run fsEmpty
        = ({ name := "my-hook", path := "/nowhere/hooks/my-hook", isSample := false,
             content := "" }, [])
      ∧ ((Repository.mk "/nowhere").NewHook "my-hook").run fsBoth
        = ((Repository.mk "/nowhere").NewHook "my-hook").run fsEmpty :=
  ⟨(NewHook_total fsEmpty (Repository.mk "/nowhere") "my-hook").1,
    (NewHook_total fsEmpty (Repository.mk "/nowhere") "my-hook").2.1 fsBoth⟩

/-! ## `Hook` -/

/-- C1: active precedence.  When the active path is a regular file whose read
succeeds with `A`, `Hook` returns no error and the hook with the requested
name, the active path, `isSample` false and content `A`, whatever the file
system says about the sample path; the sample path is never looked at. -/
theorem Hook_active_precedence (fs : FileSystem) (r : Repository) (name : HookName)
    (A : String)
    (hfile : fs.isFile (activePath r name) = true)
    (hread : fs.ReadFile (activePath r name) = .ok A) :
    (r.Hook name).run fs
      = (.ok { name := name, path := activePath r name, isSample := false, content := A },
          [Call.isFile (activePath r name), Call.ReadFile (activePath r name)]) := by
  rw [Hook_run_active fs r name hfile, hread]
  rfl

/-- Witness of C1: the scenario of the specification, `/r` holding both
`hooks/update` = `X` and `hooks/update.sample` = `Y`. -/
theorem Hook_active_precedence_witness :
    fsBoth.isFile "/r/hooks/update.sample" = true
      ∧ fsBoth.ReadFile "/r/hooks/update.sample" = .ok "Y"
      ∧ ((Repository.mk "/r").Hook "update").run fsBoth
        = (.ok { name := "update", path := "/r/hooks/update", isSample := false, content := "X" },
            [Call.isFile "/r/hooks/update", Call.ReadFile "/r/hooks/update"]) :=
  ⟨by decide, rfl,
    Hook_active_precedence fsBoth (Repository.mk "/r") "update" "X" (by decide) rfl⟩

/-- C2: sample fallback.  When the active path is not a regular file and the
sample path is a regular file whose read succeeds with `B`, `Hook` returns no
error and the hook with the requested name, `isSample` true, content `B` and
the active path, which is not the sample path. -/
theorem Hook_sample_fallback (fs : FileSystem) (r : Repository) (name : HookName)
    (B : String)
    (hact : fs.isFile (activePath r name) = false)
    (hsam : fs.isFile (samplePath r name) = true)
    (hread : fs.ReadFile (samplePath r name) = .ok B) :
    ((r.Hook name).run fs).1
        = .ok { name := name, path := activePath r name, isSample := true, content := B }
      ∧ activePath r name ≠ samplePath r name := by
  constructor
  · rw [Hook_run_sample fs r name hact hsam, hread]
    rfl
  · intro h
    have hlen := congrArg String.length h
    simp [samplePath, String.length_append] at hlen
    revert hlen
    decide

/-- Witness of C2: the scenario of the specification, `/r` holding only
`hooks/pre-receive.sample`. -/
theorem Hook_sample_fallback_witness :
    (((Repository.mk "/r").Hook "pre-receive").run fsSampleOnly).1
        = .ok { name := "pre-receive", path := "/r/hooks/pre-receive", isSample := true,
                content := "#!/bin/sh\nexit 0\n" }
      ∧ "/r/hooks/pre-receive" ≠ "/r/hooks/pre-receive.sample" :=
  Hook_sample_fallback fsSampleOnly (Repository.mk "/r") "pre-receive" "#!/bin/sh\nexit 0\n"
    (by decide) (by decide) rfl

/-- C3: not found.  When neither the active path nor the sample path is a
regular file, `Hook` returns a nil hook with `os.ErrNotExist`, after the two
existence checks and without any read. -/
theorem Hook_not_found (fs : FileSystem) (r : Repository) (name : HookName)
    (hact : fs.isFile (activePath r name) = false)
    (hsam : fs.isFile (samplePath r name) = false) :
    (r.Hook name).run fs
        = (.error GoError.ErrNotExist,
            [Call.isFile (activePath r name), Call.isFile (samplePath r name)])
      ∧ ∀ p : String, Call.ReadFile p ∉ ((r.Hook name).run fs).2 := by
  rw [Hook_run_none fs r name hact hsam]
  exact ⟨rfl, fun p => by simp⟩

/-- Witness of C3: `post-receive` in the repository `/r` that holds only
`hooks/pre-receive.sample`. -/
theorem Hook_not_found_witness :
    ((Repository.mk "/r").Hook "post-receive").run fsSampleOnly
        = (.error GoError.ErrNotExist,
            [Call.isFile "/r/hooks/post-receive", Call.isFile "/r/hooks/post-receive.sample"])
      ∧ ∀ p : String,
          Call.ReadFile p ∉ (((Repository.mk "/r").Hook "post-receive").run fsSampleOnly).2 :=
  Hook_not_found fsSampleOnly (Repository.mk "/r") "post-receive" (by decide) (by decide)

/-- C8: no fall-through after a failed active read.  When the active path is a
regular file and reading it fails with `e`, `Hook` returns a nil hook and `e`,
and the sample path is never looked at, whatever it holds. -/
theorem Hook_active_read_error (fs : FileSystem) (r : Repository) (name : HookName)
    (e : GoError)
    (hfile : fs.isFile (activePath r name) = true)
    (hread : fs.ReadFile (activePath r name) = .error e) :
    (r.Hook name).run fs
      = (.error e, [Call.isFile (activePath r name), Call.ReadFile (activePath r name)]) := by
  rw [Hook_run_active fs r name hfile, hread]
  rfl

/-- Witness of C8: `/r/hooks/update` exists but cannot be read, and a readable
`update.sample` lies next to it. -/
theorem Hook_active_read_error_witness :
    fsUnreadable.isFile "/r/hooks/update.sample" = true
      ∧ fsUnreadable.ReadFile "/r/hooks/update.sample" = .ok "Y"
      ∧ ((Repository.mk "/r").Hook "update").run fsUnreadable
        = (.error (GoError.PathError "open" "/r/hooks/update" Errno.EACCES),
            [Call.isFile "/r/hooks/update", Call.ReadFile "/r/hooks/update"]) :=
  ⟨by decide, rfl,
    Hook_active_read_error fsUnreadable (Repository.mk "/r") "update"
      (GoError.PathError "open" "/r/hooks/update" Errno.EACCES) (by decide) rfl⟩

/-- C9, as stated, fails, whatever boolean helper `isFile` is.  On `diskFault`
the existence check of the active path `/r/hooks/update` fails with an I/O
fault.  For every pair of helpers `Hook` then returns the active hook, or the
hook read from `update.sample`, or `os.ErrNotExist`: it never fails with an
I/O error. -/
theorem Hook_existence_check_failure_not_surfaced :
    diskFault.Stat "/r/hooks/update"
        = .error (GoError.PathError "stat" "/r/hooks/update" Errno.EIO)
      ∧ (∀ isFileHelper isDirHelper : Helper,
          (((Repository.mk "/r").Hook "update").run
              (diskFault.toFileSystem isFileHelper isDirHelper)).1
            = .ok { name := "update", path := "/r/hooks/update", isSample := false,
                    content := "X" }
          ∨ (((Repository.mk "/r").Hook "update").run
              (diskFault.toFileSystem isFileHelper isDirHelper)).1
            = .ok { name := "update", path := "/r/hooks/update", isSample := true,
                    content := "Y" }
          ∨ (((Repository.mk "/r").Hook "update").run
              (diskFault.toFileSystem isFileHelper isDirHelper)).1
            = .error GoError.ErrNotExist)
      ∧ (∀ (isFileHelper isDirHelper : Helper) (e : GoError),
          (((Repository.mk "/r").Hook "update").run
              (diskFault.toFileSystem isFileHelper isDirHelper)).1 = .error e →
            e = GoError.ErrNotExist) := by
  have key : ∀ isFileHelper isDirHelper : Helper,
      (((Repository.mk "/r").Hook "update").run
          (diskFault.toFileSystem isFileHelper isDirHelper)).1
        = .ok { name := "update", path := "/r/hooks/update", isSample := false,
                content := "X" }
      ∨ (((Repository.mk "/r").Hook "update").run
          (diskFault.toFileSystem isFileHelper isDirHelper)).1
        = .ok { name := "update", path := "/r/hooks/update", isSample := true,
                content := "Y" }
      ∨ (((Repository.mk "/r").Hook "update").run
          (diskFault.toFileSystem isFileHelper isDirHelper)).1
        = .error GoError.ErrNotExist := by
    intro isFileHelper isDirHelper
    by_cases hact : isFileHelper diskFault "/r/hooks/update" = true
    · left
      rw [Hook_run_active (diskFault.toFileSystem isFileHelper isDirHelper)
        (Repository.mk "/r") "update" hact]
      rfl
    · have hact2 : isFileHelper diskFault "/r/hooks/update" = false := by simpa using hact
      by_cases hsam : isFileHelper diskFault "/r/hooks/update.sample" = true
      · right; left
        rw [Hook_run_sample (diskFault.toFileSystem isFileHelper isDirHelper)
          (Repository.mk "/r") "update" hact2 hsam]
        rfl
      · have hsam2 : isFileHelper diskFault "/r/hooks/update.sample" = false := by
          simpa using hsam
        right; right
        rw [Hook_run_none (diskFault.toFileSystem isFileHelper isDirHelper)
          (Repository.mk "/r") "update" hact2 hsam2]
  refine ⟨rfl, key, ?_⟩
  intro isFileHelper isDirHelper e he
  rcases key isFileHelper isDirHelper with h | h | h
  · rw [h] at he
    exact nomatch he
  · rw [h] at he
    exact nomatch he
  · rw [h] at he
    exact (Except.error.inj he).symm

/-- C9, amended: a failure reaches the result of `Hook` only through a read.
For every boolean helper `isFile` and every disk, whatever the existence checks
met: where the helper answers `true` for the active path, `Hook` returns the
outcome of reading it; where it answers `false` for the active path and `true`
for the sample path, `Hook` returns the outcome of reading the sample; where it
answers `false` for both, `Hook` returns `os.ErrNotExist`.  So a read that
`Hook` performs and that fails with `e` makes `Hook` return a nil hook and
exactly `e`. -/
theorem Hook_failures_only_through_reads (isFileHelper isDirHelper : Helper) (d : Disk)
    (r : Repository) (name : HookName) :
    ((r.Hook name).run (d.toFileSystem isFileHelper isDirHelper)).1
        = (if isFileHelper d (activePath r name) = true then
            (d.ReadFile (activePath r name)).map
              (fun p => { name := name, path := activePath r name, isSample := false,
                          content := p })
          else if isFileHelper d (samplePath r name) = true then
            (d.ReadFile (samplePath r name)).map
              (fun p => { name := name, path := activePath r name, isSample := true,
                          content := p })
          else .error GoError.ErrNotExist)
      ∧ ∀ e : GoError,
          ((isFileHelper d (activePath r name) = true
              ∧ d.ReadFile (activePath r name) = .error e)
            ∨ (isFileHelper d (activePath r name) = false
              ∧ isFileHelper d (samplePath r name) = true
              ∧ d.ReadFile (samplePath r name) = .error e)) →
          ((r.Hook name).run (d.toFileSystem isFileHelper isDirHelper)).1 = .error e := by
  have key : ((r.Hook name).run (d.toFileSystem isFileHelper isDirHelper)).1
      = (if isFileHelper d (activePath r name) = true then
          (d.ReadFile (activePath r name)).map
            (fun p => { name := name, path := activePath r name, isSample := false,
                        content := p })
        else if isFileHelper d (samplePath r name) = true then
          (d.ReadFile (samplePath r name)).map
            (fun p => { name := name, path := activePath r name, isSample := true,
                        content := p })
        else .error GoError.ErrNotExist) := by
    by_cases hact : isFileHelper d (activePath r name) = true
    · rw [if_pos hact, Hook_run_active (d.toFileSystem isFileHelper isDirHelper) r name hact]
      rfl
    · have hact2 : isFileHelper d (activePath r name) = false := by simpa using hact
      rw [if_neg hact]
      by_cases hsam : isFileHelper d (samplePath r name) = true
      · rw [if_pos hsam,
          Hook_run_sample (d.toFileSystem isFileHelper isDirHelper) r name hact2 hsam]
        rfl
      · have hsam2 : isFileHelper d (samplePath r name) = false := by simpa using hsam
        rw [if_neg hsam,
          Hook_run_none (d.toFileSystem isFileHelper isDirHelper) r name hact2 hsam2]
  refine ⟨key, ?_⟩
  rintro e (⟨hfile, hread⟩ | ⟨hact, hsam, hread⟩)
  · rw [key, if_pos hfile, hread]
    rfl
  · have hact2 : ¬ isFileHelper d (activePath r name) = true := by simp [hact]
    rw [key, if_neg hact2, if_pos hsam, hread]
    rfl

/-- Witness of the amended C9, on `diskDenied`.  With the helper that answers
`false` to a failed stat: the stat of `/r/hooks/post-receive` is refused, the
read of `post-receive.sample` fails and `Hook` returns that read error; the
stat of `/r/hooks/update` is refused and `Hook` returns the hook read from
`update.sample`.  With the helper that answers `true` to a refused stat, `Hook`
returns the error of reading `/r/hooks/update`. -/
theorem Hook_failures_only_through_reads_witness :
    (((Repository.mk "/r").Hook "post-receive").run
          (diskDenied.toFileSystem strictIsFile strictIsDir)).1
        = .error (GoError.PathError "read" "/r/hooks/post-receive.sample" Errno.EIO)
      ∧ (((Repository.mk "/r").Hook "update").run
          (diskDenied.toFileSystem strictIsFile strictIsDir)).1
        = .ok { name := "update", path := "/r/hooks/update", isSample := true, content := "Y" }
      ∧ (((Repository.mk "/r").Hook "update").run
          (diskDenied.toFileSystem lenientIsFile strictIsDir)).1
        = .error (GoError.PathError "open" "/r/hooks/update" Errno.EACCES) :=
  ⟨(Hook_failures_only_through_reads strictIsFile strictIsDir diskDenied (Repository.mk "/r")
      "post-receive").2 (GoError.PathError "read" "/r/hooks/post-receive.sample" Errno.EIO)
      (Or.inr ⟨by decide, by decide, rfl⟩),
    (Hook_failures_only_through_reads strictIsFile strictIsDir diskDenied (Repository.mk "/r")
      "update").1,
    (Hook_failures_only_through_reads lenientIsFile strictIsDir diskDenied (Repository.mk "/r")
      "update").2 (GoError.PathError "open" "/r/hooks/update" Errno.EACCES)
      (Or.inl ⟨by decide, rfl⟩)⟩

/-! ## `Hooks` -/

/-- C4: enumeration.  When `<repo>/hooks` is a directory and no catalog name
fails to resolve with an error other than `os.ErrNotExist`, `Hooks` returns no
error and the catalog, in order, with each name replaced by the hook `Hook`
returns for it and the names `Hook` does not resolve removed; the names of the
entries are the catalog names that resolve, in catalog order. -/
theorem Hooks_enumeration (fs : FileSystem) (catalog : List HookName) (r : Repository)
    (hdir : fs.isDir (hooksDir r) = true)
    (hok : ∀ n ∈ catalog, ¬ failsHard fs r n) :
    ((r.Hooks catalog).run fs).1 = .ok (catalog.filterMap (resolved fs r))
      ∧ (catalog.filterMap (resolved fs r)).map Hook.name
          = catalog.filter (fun n => (resolved fs r n).isSome) := by
  refine ⟨?_, map_name_filterMap_resolved fs r catalog⟩
  rw [Hooks_run, if_pos hdir, hooksLoop_run_ok fs r catalog [] hok]
  rfl

/-- Witness of C4: the catalog `pre-receive, update, post-receive` on a
repository holding `pre-receive.sample`, `update` and `update.sample`. -/
theorem Hooks_enumeration_witness :
    (((Repository.mk "/r").Hooks exampleCatalog).run fsRepo).1
        = .ok [{ name := "pre-receive", path := "/r/hooks/pre-receive", isSample := true,
                 content := "S" },
               { name := "update", path := "/r/hooks/update", isSample := false,
                 content := "X" }]
      ∧ ([{ name := "pre-receive", path := "/r/hooks/pre-receive", isSample := true,
            content := "S" },
          { name := "update", path := "/r/hooks/update", isSample := false,
            content := "X" }] : List Hook).map Hook.name
          = ["pre-receive", "update"] :=
  Hooks_enumeration fsRepo exampleCatalog (Repository.mk "/r") (by decide) (by
    rintro n hn ⟨e, he, hne⟩
    simp only [exampleCatalog, List.mem_cons, List.mem_singleton, List.not_mem_nil,
      or_false] at hn
    rcases hn with rfl | rfl | rfl
    · have h2 : ((Repository.Hook (Repository.mk "/r") "pre-receive").run fsRepo).1
          = .ok { name := "pre-receive", path := "/r/hooks/pre-receive", isSample := true,
                  content := "S" } := rfl
      rw [h2] at he
      exact nomatch he
    · have h2 : ((Repository.Hook (Repository.mk "/r") "update").run fsRepo).1
          = .ok { name := "update", path := "/r/hooks/update", isSample := false,
                  content := "X" } := rfl
      rw [h2] at he
      exact nomatch he
    · have h2 : ((Repository.Hook (Repository.mk "/r") "post-receive").run fsRepo).1
          = .error GoError.ErrNotExist := rfl
      rw [h2] at he
      exact hne (Except.error.inj he).symm)

/-- C5: missing hooks directory.  When `<repo>/hooks` is not a directory,
`Hooks` returns an empty, non-nil list and a nil error, and its only call is
the directory test: no catalog name is resolved. -/
theorem Hooks_missing_dir (fs : FileSystem) (catalog : List HookName) (r : Repository)
    (hdir : fs.isDir (hooksDir r) = false) :
    (r.Hooks catalog).run fs = (.ok [], [Call.isDir (hooksDir r)]) := by
  rw [Hooks_run]
  simp [hdir]

/-- Witness of C5: a file system with nothing in it. -/
theorem Hooks_missing_dir_witness :
    ((Repository.mk "/r").Hooks exampleCatalog).run fsEmpty
      = (.ok [], [Call.isDir "/r/hooks"]) :=
  Hooks_missing_dir fsEmpty exampleCatalog (Repository.mk "/r") rfl

/-- C6: `Hooks` never returns `os.ErrNotExist`: in every file system state and
for every catalog its error is nil or another error. -/
theorem Hooks_never_ErrNotExist (fs : FileSystem) (catalog : List HookName)
    (r : Repository) :
    ((r.Hooks catalog).run fs).1 ≠ .error GoError.ErrNotExist := by
  rw [Hooks_run]
  by_cases hdir : fs.isDir (hooksDir r) = true
  · rw [if_pos hdir]
    exact hooksLoop_not_ErrNotExist fs r catalog []
  · rw [if_neg hdir]
    exact fun h => nomatch h

/-- Witness of C6: every name of the catalog `post-receive, post-update` is
absent from the repository; each resolution gives `os.ErrNotExist` and `Hooks`
returns the empty list with a nil error. -/
theorem Hooks_never_ErrNotExist_witness :
    (((Repository.mk "/r").Hook "post-receive").run fsRepo).1 = .error GoError.ErrNotExist
      ∧ (((Repository.mk "/r").Hook "post-update").run fsRepo).1 = .error GoError.ErrNotExist
      ∧ (((Repository.mk "/r").Hooks ["post-receive", "post-update"]).run fsRepo).1 = .ok []
      ∧ (((Repository.mk "/r").Hooks ["post-receive", "post-update"]).run fsRepo).1
          ≠ .error GoError.ErrNotExist :=
  ⟨rfl, rfl, rfl,
    Hooks_never_ErrNotExist fsRepo ["post-receive", "post-update"] (Repository.mk "/r")⟩

/-- C7: fail fast, all or nothing.  When `<repo>/hooks` is a directory and
some catalog name fails to resolve with an error other than `os.ErrNotExist`,
the catalog splits at the first such name; `Hooks` returns a nil list with
exactly the error `e` of that name, and its calls are the directory test
followed by the calls of `Hook` for the names up to and including that one:
no later name is resolved. -/
theorem Hooks_fail_fast (fs : FileSystem) (catalog : List HookName) (r : Repository)
    (hdir : fs.isDir (hooksDir r) = true)
    (hsome : ∃ n ∈ catalog, failsHard fs r n) :
    ∃ (pre : List HookName) (name : HookName) (post : List HookName) (e : GoError),
      catalog = pre ++ name :: post
        ∧ (∀ n ∈ pre, ¬ failsHard fs r n)
        ∧ ((r.Hook name).run fs).1 = .error e
        ∧ e ≠ GoError.ErrNotExist
        ∧ (r.Hooks catalog).run fs
            = (.error e,
                Call.isDir (hooksDir r) :: (pre ++ [name]).flatMap (hookCalls fs r)) := by
  obtain ⟨pre, name, post, hcat, hpre, e, herr, hne⟩ := split_at_first_failure fs r catalog hsome
  refine ⟨pre, name, post, e, hcat, hpre, herr, hne, ?_⟩
  rw [Hooks_run, if_pos hdir, hcat, hooksLoop_run_fail fs r pre name post e herr hne [] hpre]

/-- Witness of C7: `pre-receive` resolves, `update` cannot be read,
`post-receive` would resolve and is never looked at. -/
theorem Hooks_fail_fast_witness :
    (∃ (pre : List HookName) (name : HookName) (post : List HookName) (e : GoError),
      exampleCatalog = pre ++ name :: post
        ∧ (∀ n ∈ pre, ¬ failsHard fsFailing (Repository.mk "/r") n)
        ∧ (((Repository.mk "/r").Hook name).run fsFailing).1 = .error e
        ∧ e ≠ GoError.ErrNotExist
        ∧ ((Repository.mk "/r").Hooks exampleCatalog).run fsFailing
            = (.error e,
                Call.isDir "/r/hooks"
                  :: (pre ++ [name]).flatMap (hookCalls fsFailing (Repository.mk "/r"))))
      ∧ ((Repository.mk "/r").Hooks exampleCatalog).run fsFailing
        = (.error (GoError.PathError "read" "/r/hooks/update" Errno.EIO),
            [Call.isDir "/r/hooks",
              Call.isFile "/r/hooks/pre-receive", Call.ReadFile "/r/hooks/pre-receive",
              Call.isFile "/r/hooks/update", Call.ReadFile "/r/hooks/update"])
      ∧ (((Repository.mk "/r").Hook "post-receive").run fsFailing).1
        = .ok { name := "post-receive", path := "/r/hooks/post-receive", isSample := false,
                content := "C" } :=
  ⟨Hooks_fail_fast fsFailing exampleCatalog (Repository.mk "/r") (by decide)
      ⟨"update", by decide,
        GoError.PathError "read" "/r/hooks/update" Errno.EIO, rfl, fun h => nomatch h⟩,
    rfl, rfl⟩

end GitModule
